import Mathlib

/-!
Shallow embedding of the Game of Life simulator in `src/main.rs`
(repository Thijnvdb/game_of_life).

The grid is stored as a flat `List Bool` of length `width * height`,
row-major: index `i` holds cell `(i % width, i / width)`.  The Rust code
keeps it in `Model.field : Vec<bool>` together with
`Settings { width, height, delay }`.

`update_field` embeds the step function (`fn update_field`, lines 100-152):
it clones the field into `copy`, then for every `i` in
`0 .. height * width` counts the alive neighbours of `(i % width, i / width)`
reading from the *original* `field`, and rewrites `copy` at index
`x + y * width` according to the B3/S23 rule.  Neighbour coordinates are
computed in `i32` (embedded here as `Int`) and any coordinate outside
`[0, width) × [0, height)` is skipped.

A second, `Option`-valued version (`update_fieldChecked`) additionally
models every place the Rust code can panic: the `.to_i32().unwrap()`
conversions and the two slice indexings.  `none` means a panic.
-/

/-- The survive/birth rule applied to one tile, exactly as the
`if *tile { .. } else { .. }` block at lines 138-148 of `main.rs`. -/
def lifeRule (tile : Bool) (alive_neighbours : Nat) : Bool :=
  if tile then
    if alive_neighbours ≠ 2 ∧ alive_neighbours ≠ 3 then false else tile
  else
    if alive_neighbours = 3 then true else tile

/-- One iteration of the inner double loop of `update_field` (lines 109-135)
for offsets `(dx, dy)` (the centre `(1,1)` case is excluded by the caller):
the neighbour coordinate `(x + dx - 1, y + dy - 1)` is computed in `i32`
arithmetic, skipped when outside `[0, width) × [0, height)`, and otherwise
the cell `field[x_n + y_n * width]` contributes 1 when alive. -/
def neighbourContribution (field : List Bool) (width height x y dx dy : Nat) : Nat :=
  let x_n : Int := (x : Int) + dx - 1
  let y_n : Int := (y : Int) + dy - 1
  if x_n < 0 ∨ x_n ≥ (width : Int) ∨ y_n < 0 ∨ y_n ≥ (height : Int) then 0
  else if field.getD (x_n + y_n * (width : Int)).toNat false then 1 else 0

/-- Alive-neighbour count of cell `(x, y)`: the `for dy in 0..3 { for dx in
0..3 { .. } }` double loop of `update_field`, skipping the tile itself. -/
def aliveNeighbours (field : List Bool) (width height x y : Nat) : Nat :=
  (List.range 3).foldl (fun acc dy =>
    (List.range 3).foldl (fun acc dx =>
      if dx = 1 ∧ dy = 1 then acc
      else acc + neighbourContribution field width height x y dx dy) acc) 0

/-- The step function `update_field` (lines 100-152): starting from a clone
of `field`, every index `i < height * width` is rewritten with the rule
applied to the old tile value and the neighbour count taken from the
unmodified `field`. -/
def update_field (field : List Bool) (width height : Nat) : List Bool :=
  (List.range (height * width)).foldl (fun copy i =>
    let x := i % width
    let y := i / width
    let alive_neighbours := aliveNeighbours field width height x y
    copy.set (x + y * width) (lifeRule (copy.getD (x + y * width) false) alive_neighbours)) field

/-- Linear index of cell `(x, y)`: the expression `x + (y * settings.width)`
at line 137 of `main.rs` (the spec's `index_of`). -/
def index_of (width x y : Nat) : Nat := x + y * width

/-- Coordinates of linear index `i`: `x = i % width`, `y = i / width`
(lines 103-105 of `main.rs`; the spec's `coords_of`). -/
def coords_of (width i : Nat) : Nat × Nat := (i % width, i / width)

/-- The Clear-button handler (lines 81-86 of `main.rs`):
`for i in 0..model.field.len() { model.field[i] = false; }`. -/
def clearField (field : List Bool) : List Bool :=
  (List.range field.length).foldl (fun f i => f.set i false) field

/-- Tail of `mouse_released` (lines 162-178) after the pointer position has
been inverse-mapped and floored to cell coordinates `(x, y)` (embedded as
`Int`, the value of the `f32` floors).  The Rust code computes
`index = x + y * width`, converts with `.to_usize().unwrap()` (panics when
negative) and runs `model.field[index] = !model.field[index]` (panics when
`index` is out of range).  `none` models a panic; there is no range check
on `(x, y)`. -/
def mouse_released (field : List Bool) (width : Nat) (x y : Int) : Option (List Bool) :=
  let index : Int := x + y * (width : Int)
  if index < 0 then none
  else if index.toNat < field.length then
    some (field.set index.toNat (!(field.getD index.toNat false)))
  else none

/-- State touched by the timed part of `update` (lines 89-97): the cell
store and the elapsed-time accumulator `current_step` (a `Duration`,
embedded as nanoseconds). -/
structure SimState where
  field : List Bool
  current_step : Nat
  deriving Repr, DecidableEq

/-- `Duration::from_millis delay` in nanoseconds. -/
def delayNanos (delay : Nat) : Nat := delay * 1000000

/-- The timed part of `update` (lines 89-97): when inactive nothing happens;
otherwise `since_last` is added to `current_step`, and only if the
accumulated time exceeds `Duration::from_millis(delay)` is the field
replaced by `update_field` and the accumulator reset to zero. -/
def update_tick (active : Bool) (width height delay : Nat)
    (s : SimState) (since_last : Nat) : SimState :=
  if !active then s
  else
    let acc := s.current_step + since_last
    if acc > delayNanos delay then
      { field := update_field s.field width height, current_step := 0 }
    else
      { field := s.field, current_step := acc }

/-- `u32::to_i32().unwrap()` (via `num_traits`): succeeds exactly when the
value fits in an `i32`. -/
def toI32 (n : Nat) : Option Int := if n < 2 ^ 31 then some (n : Int) else none

/-- `field[idx.to_usize().unwrap()]` on an `i32` index: `to_usize` panics on
a negative value, and the slice indexing panics out of range. -/
def readCell (field : List Bool) (idx : Int) : Option Bool :=
  if idx < 0 then none
  else if idx.toNat < field.length then some (field.getD idx.toNat false)
  else none

/-- The short-circuiting bounds test of lines 120-124, with each
`.to_i32().unwrap()` conversion modelled: `x_n < 0 || x_n >= width as i32
|| y_n < 0 || y_n >= height as i32`. -/
def boundsCheckFails (width height : Nat) (x_n y_n : Int) : Option Bool :=
  if x_n < 0 then some true
  else do
    let wi ← toI32 width
    if x_n ≥ wi then pure true
    else if y_n < 0 then pure true
    else do
      let hi ← toI32 height
      pure (y_n ≥ hi)

/-- Panic-aware version of `neighbourContribution`: models the
`(x + dx).to_i32().unwrap()` / `(y + dy).to_i32().unwrap()` conversions
(lines 117-118), the bounds test, and the indexing of line 128. -/
def neighbourContributionChecked (field : List Bool) (width height x y dx dy : Nat) :
    Option Nat := do
  let xdx ← toI32 (x + dx)
  let ydy ← toI32 (y + dy)
  let x_n := xdx - 1
  let y_n := ydy - 1
  let skip ← boundsCheckFails width height x_n y_n
  if skip then pure 0
  else do
    let wi ← toI32 width
    let thing ← readCell field (x_n + y_n * wi)
    pure (if thing then 1 else 0)

/-- Panic-aware version of `aliveNeighbours`. -/
def aliveNeighboursChecked (field : List Bool) (width height x y : Nat) : Option Nat :=
  (List.range 3).foldlM (fun acc dy =>
    (List.range 3).foldlM (fun acc dx =>
      if dx = 1 ∧ dy = 1 then pure acc
      else do
        let c ← neighbourContributionChecked field width height x y dx dy
        pure (acc + c)) acc) 0

/-- Panic-aware version of `update_field`: additionally models the indexing
`copy[(x + (y * settings.width)).to_usize().unwrap()]` at line 137, which
panics when the index is not below `copy.len()`. -/
def update_fieldChecked (field : List Bool) (width height : Nat) : Option (List Bool) :=
  (List.range (height * width)).foldlM (fun copy i => do
    let x := i % width
    let y := i / width
    let alive_neighbours ← aliveNeighboursChecked field width height x y
    if x + y * width < copy.length then
      pure (copy.set (x + y * width) (lifeRule (copy.getD (x + y * width) false) alive_neighbours))
    else none) field

/-- The grid of dimensions `width × height` whose cell `(x, y)` holds
`p x y`: the generic way to describe a concrete pattern (block, blinker,
all-dead) as a flat row-major cell store. -/
def patternGrid (w h : Nat) (p : Nat → Nat → Bool) : List Bool :=
  (List.range (h * w)).map (fun j => p (j % w) (j / w))

/-- The number of alive cells among the 8 cells surrounding interior cell
`(x, y)` (spec wording: count over the 3×3 block centred on `(x, y)`,
excluding the centre).  Meaningful for `1 ≤ x` and `1 ≤ y`. -/
def interiorNeighbourCount (field : List Bool) (w x y : Nat) : Nat :=
  List.countP (fun c => field.getD (c.1 + c.2 * w) false)
    [(x - 1, y - 1), (x, y - 1), (x + 1, y - 1), (x - 1, y),
     (x + 1, y), (x - 1, y + 1), (x, y + 1), (x + 1, y + 1)]

/-! ### Generic lemmas about the write-one-index-per-iteration folds -/

lemma getD_set (l : List Bool) (i j : Nat) (v : Bool) :
    (l.set i v).getD j false = if i = j ∧ i < l.length then v else l.getD j false := by
  simp only [List.getD_eq_getElem?_getD, List.getElem?_set]
  by_cases h1 : i = j
  · subst h1
    by_cases h2 : i < l.length
    · simp [h2]
    · simp [h2, List.getElem?_eq_none (by omega : l.length ≤ i)]
  · simp [h1]

/-- A fold over `List.range n` whose step writes index `i` with a value
computed from the accumulator's old entry at `i` only: its length is
unchanged and each entry below `n` is rewritten from the initial list. -/
lemma foldl_set_spec (g : Nat → Bool → Bool) :
    ∀ (n : Nat) (l : List Bool),
      ((List.range n).foldl (fun acc i => acc.set i (g i (acc.getD i false))) l).length
        = l.length ∧
      ∀ j, ((List.range n).foldl (fun acc i => acc.set i (g i (acc.getD i false))) l).getD j false
        = if j < n ∧ j < l.length then g j (l.getD j false) else l.getD j false := by
  intro n
  induction n with
  | zero => intro l; simp
  | succ n ih =>
    intro l
    rw [List.range_succ, List.foldl_append]
    simp only [List.foldl_cons, List.foldl_nil]
    obtain ⟨ihlen, ihget⟩ := ih l
    constructor
    · rw [List.length_set, ihlen]
    · intro j
      rw [getD_set, ihlen, ihget n, ihget j,
        if_neg (by omega : ¬(n < n ∧ n < l.length))]
      by_cases hj : n = j
      · subst hj
        by_cases hn : n < l.length
        · rw [if_pos ⟨rfl, hn⟩, if_pos (by omega : n < n + 1 ∧ n < l.length)]
        · rw [if_neg (by omega : ¬(n = n ∧ n < l.length)),
            if_neg (by omega : ¬(n < n ∧ n < l.length)),
            if_neg (by omega : ¬(n < n + 1 ∧ n < l.length))]
      · rw [if_neg (fun hc => hj hc.1)]
        by_cases h2 : j < n ∧ j < l.length
        · rw [if_pos h2, if_pos (by omega : j < n + 1 ∧ j < l.length)]
        · rw [if_neg h2, if_neg (by omega : ¬(j < n + 1 ∧ j < l.length))]

/-- `update_field` with its per-iteration write index simplified to `i`
(since `i % width + i / width * width = i`). -/
lemma update_field_eq_fold (field : List Bool) (w h : Nat) :
    update_field field w h = (List.range (h * w)).foldl
      (fun copy i => copy.set i
        (lifeRule (copy.getD i false) (aliveNeighbours field w h (i % w) (i / w)))) field := by
  unfold update_field
  apply List.foldl_ext
  intro copy i _
  simp only [Nat.mod_add_div']

lemma update_field_length (field : List Bool) (w h : Nat) :
    (update_field field w h).length = field.length := by
  rw [update_field_eq_fold]
  exact ((foldl_set_spec
    (fun i b => lifeRule b (aliveNeighbours field w h (i % w) (i / w))) (h * w)) field).1

/-- Pointwise characterisation of the step: inside the grid, the new value
is the rule applied to the old tile and the neighbour count of the old
field — each cell of the next generation depends only on the unmodified
previous generation. -/
lemma update_field_getD (field : List Bool) (w h : Nat) (hlen : field.length = h * w)
    (j : Nat) (hj : j < h * w) :
    (update_field field w h).getD j false
      = lifeRule (field.getD j false) (aliveNeighbours field w h (j % w) (j / w)) := by
  rw [update_field_eq_fold]
  rw [((foldl_set_spec
    (fun i b => lifeRule b (aliveNeighbours field w h (i % w) (i / w))) (h * w)) field).2 j]
  rw [if_pos ⟨hj, by omega⟩]

lemma clearField_length (field : List Bool) : (clearField field).length = field.length :=
  ((foldl_set_spec (fun _ _ => false) field.length) field).1

lemma clearField_getD (field : List Bool) (j : Nat) :
    (clearField field).getD j false = false := by
  unfold clearField
  rw [((foldl_set_spec (fun _ _ => false) field.length) field).2 j]
  by_cases hj : j < field.length
  · rw [if_pos ⟨hj, hj⟩]
  · rw [if_neg (by omega : ¬(j < field.length ∧ j < field.length)),
      List.getD_eq_default field false (by omega : field.length ≤ j)]

/-! ### Grids described by a coordinate predicate -/

lemma patternGrid_length (w h : Nat) (p : Nat → Nat → Bool) :
    (patternGrid w h p).length = h * w := by
  simp [patternGrid]

lemma patternGrid_getD (w h : Nat) (p : Nat → Nat → Bool) {j : Nat} (hj : j < h * w) :
    (patternGrid w h p).getD j false = p (j % w) (j / w) := by
  have hl : j < (patternGrid w h p).length := by rw [patternGrid_length]; exact hj
  rw [List.getD_eq_getElem _ false hl]
  simp [patternGrid]

lemma patternGrid_getD_xy (w h : Nat) (p : Nat → Nat → Bool) {x y : Nat}
    (hx : x < w) (hy : y < h) :
    (patternGrid w h p).getD (x + y * w) false = p x y := by
  have hj : x + y * w < h * w := by
    calc x + y * w < (y + 1) * w := by rw [Nat.add_mul, Nat.one_mul]; omega
    _ ≤ h * w := Nat.mul_le_mul_right _ (by omega)
  rw [patternGrid_getD w h p hj, Nat.add_mul_mod_self_right, Nat.mod_eq_of_lt hx,
    Nat.add_mul_div_right _ _ (by omega : 0 < w), Nat.div_eq_of_lt hx, Nat.zero_add]

/-- A grid of the right length whose cells are given by `p` is the
corresponding `patternGrid`. -/
lemma eq_patternGrid (field : List Bool) (w h : Nat) (p : Nat → Nat → Bool)
    (hlen : field.length = h * w)
    (hcells : ∀ j, j < h * w → field.getD j false = p (j % w) (j / w)) :
    field = patternGrid w h p := by
  apply List.ext_getElem (by rw [hlen, patternGrid_length])
  intro j h1 h2
  rw [← List.getD_eq_getElem _ false h1, ← List.getD_eq_getElem _ false h2,
    hcells j (by omega), patternGrid_getD w h p (by omega)]

/-- On a pattern grid, one neighbour contribution reduces to a pure
arithmetic condition: the candidate coordinate is in bounds and the
pattern holds there. -/
lemma neighbourContribution_patternGrid (w h x y dx dy : Nat) (p : Nat → Nat → Bool) :
    neighbourContribution (patternGrid w h p) w h x y dx dy
      = if (0 ≤ (x : Int) + dx - 1 ∧ (x : Int) + dx - 1 < (w : Int)
            ∧ 0 ≤ (y : Int) + dy - 1 ∧ (y : Int) + dy - 1 < (h : Int)
            ∧ p ((x : Int) + dx - 1).toNat ((y : Int) + dy - 1).toNat = true)
        then 1 else 0 := by
  simp only [neighbourContribution]
  by_cases hb : ((x : Int) + dx - 1 < 0 ∨ (x : Int) + dx - 1 ≥ (w : Int)
      ∨ (y : Int) + dy - 1 < 0 ∨ (y : Int) + dy - 1 ≥ (h : Int))
  · rw [if_pos hb, if_neg]
    rintro ⟨h1, h2, h3, h4, -⟩
    omega
  · rw [if_neg hb]
    have h1 : 0 ≤ (x : Int) + dx - 1 := by omega
    have h2 : (x : Int) + dx - 1 < (w : Int) := by omega
    have h3 : 0 ≤ (y : Int) + dy - 1 := by omega
    have h4 : (y : Int) + dy - 1 < (h : Int) := by omega
    have hw : 0 < w := by omega
    have hA : ((x : Int) + dx - 1).toNat < w := by omega
    have hB : ((y : Int) + dy - 1).toNat < h := by omega
    have hidx : ((x : Int) + dx - 1 + ((y : Int) + dy - 1) * (w : Int)).toNat
        = ((x : Int) + dx - 1).toNat + ((y : Int) + dy - 1).toNat * w := by
      have : (x : Int) + dx - 1 + ((y : Int) + dy - 1) * (w : Int)
          = ((((x : Int) + dx - 1).toNat + ((y : Int) + dy - 1).toNat * w : Nat) : Int) := by
        push_cast
        rw [Int.toNat_of_nonneg h1, Int.toNat_of_nonneg h3]
      rw [this, Int.toNat_natCast]
    have hjlt : ((x : Int) + dx - 1).toNat + ((y : Int) + dy - 1).toNat * w < h * w := by
      calc ((x : Int) + dx - 1).toNat + ((y : Int) + dy - 1).toNat * w
          < (((y : Int) + dy - 1).toNat + 1) * w := by rw [Nat.add_mul, Nat.one_mul]; omega
      _ ≤ h * w := Nat.mul_le_mul_right _ (by omega)
    rw [hidx, patternGrid_getD w h p hjlt, Nat.add_mul_mod_self_right,
      Nat.mod_eq_of_lt hA, Nat.add_mul_div_right _ _ hw, Nat.div_eq_of_lt hA, Nat.zero_add]
    by_cases hp : p ((x : Int) + dx - 1).toNat ((y : Int) + dy - 1).toNat = true
    · rw [if_pos hp, if_pos ⟨h1, h2, h3, h4, hp⟩]
    · rw [if_neg hp, if_neg (fun hc => hp hc.2.2.2.2)]

/-- `aliveNeighbours` written out as the sum of the eight neighbour
contributions, in loop order. -/
lemma aliveNeighbours_eq (field : List Bool) (w h x y : Nat) :
    aliveNeighbours field w h x y =
      neighbourContribution field w h x y 0 0 + neighbourContribution field w h x y 1 0
      + neighbourContribution field w h x y 2 0 + neighbourContribution field w h x y 0 1
      + neighbourContribution field w h x y 2 1 + neighbourContribution field w h x y 0 2
      + neighbourContribution field w h x y 1 2 + neighbourContribution field w h x y 2 2 := by
  show List.foldl _ _ (List.range 3) = _
  rw [show List.range 3 = [0, 1, 2] from rfl]
  simp only [List.foldl_cons, List.foldl_nil]
  norm_num

/-- A Bool equals the `decide` of any proposition it is equivalent to. -/
lemma eq_decide_of_iff (b : Bool) (P : Prop) [Decidable P] (h : b = true ↔ P) :
    b = decide P := by
  by_cases hP : P
  · rw [h.mpr hP, decide_eq_true hP]
  · cases hb : b
    · rw [decide_eq_false hP]
    · exact absurd (h.mp hb) hP

/-- Characterisation of `lifeRule` on decidable cell descriptions. -/
lemma lifeRule_decide (A B : Prop) [Decidable A] [Decidable B] (n : Nat) :
    (lifeRule (decide A) n = decide B)
      ↔ ((A → (B ↔ (n = 2 ∨ n = 3))) ∧ (¬A → (B ↔ n = 3))) := by
  by_cases hA : A <;> by_cases hB : B <;>
    simp [lifeRule, hA, hB]

/-- If the rule sends the cells of pattern `p` to the cells of pattern `q`
everywhere in the grid, the step function maps one pattern grid to the
other. -/
lemma update_field_pattern (w h : Nat) (p q : Nat → Nat → Bool)
    (hcell : ∀ x y, x < w → y < h →
      lifeRule (p x y) (aliveNeighbours (patternGrid w h p) w h x y) = q x y) :
    update_field (patternGrid w h p) w h = patternGrid w h q := by
  apply List.ext_getElem
  · rw [update_field_length, patternGrid_length, patternGrid_length]
  · intro j h1 h2
    have hj : j < h * w := by rwa [update_field_length, patternGrid_length] at h1
    have hw : 0 < w := by
      rcases Nat.eq_zero_or_pos w with h0 | h0
      · rw [h0, Nat.mul_zero] at hj; omega
      · exact h0
    rw [← List.getD_eq_getElem _ false h1, ← List.getD_eq_getElem _ false h2,
      update_field_getD _ _ _ (patternGrid_length w h p) j hj,
      patternGrid_getD w h p hj, patternGrid_getD w h q hj]
    exact hcell (j % w) (j / w) (Nat.mod_lt _ hw)
      (Nat.div_lt_of_lt_mul (by rwa [Nat.mul_comm h w] at hj))

/-! ### The interior neighbour count and the B3/S23 rule (claim C1) -/

/-- Inside the grid interior the bounds test of the neighbour scan always
passes, so a contribution is just a read of the neighbour cell. -/
lemma neighbourContribution_interior (field : List Bool) (w h x y dx dy : Nat)
    (hdx : dx < 3) (hdy : dy < 3)
    (hx1 : 1 ≤ x) (hx2 : x + 2 ≤ w) (hy1 : 1 ≤ y) (hy2 : y + 2 ≤ h) :
    neighbourContribution field w h x y dx dy
      = if field.getD ((x + dx - 1) + (y + dy - 1) * w) false then 1 else 0 := by
  simp only [neighbourContribution]
  rw [if_neg (show ¬((x : Int) + dx - 1 < 0 ∨ (x : Int) + dx - 1 ≥ (w : Int)
      ∨ (y : Int) + dy - 1 < 0 ∨ (y : Int) + dy - 1 ≥ (h : Int)) by omega)]
  rw [show (x : Int) + dx - 1 = ((x + dx - 1 : Nat) : Int) by omega,
    show (y : Int) + dy - 1 = ((y + dy - 1 : Nat) : Int) by omega,
    show (((x + dx - 1 : Nat) : Int) + ((y + dy - 1 : Nat) : Int) * (w : Int))
        = (((x + dx - 1) + (y + dy - 1) * w : Nat) : Int) by push_cast; ring,
    Int.toNat_natCast]

/-- In the interior, the source's neighbour scan computes exactly the
count of alive cells among the 8 surrounding neighbours. -/
lemma aliveNeighbours_interior (field : List Bool) (w h x y : Nat)
    (hx1 : 1 ≤ x) (hx2 : x + 2 ≤ w) (hy1 : 1 ≤ y) (hy2 : y + 2 ≤ h) :
    aliveNeighbours field w h x y = interiorNeighbourCount field w x y := by
  rw [aliveNeighbours_eq,
    neighbourContribution_interior field w h x y 0 0 (by omega) (by omega) hx1 hx2 hy1 hy2,
    neighbourContribution_interior field w h x y 1 0 (by omega) (by omega) hx1 hx2 hy1 hy2,
    neighbourContribution_interior field w h x y 2 0 (by omega) (by omega) hx1 hx2 hy1 hy2,
    neighbourContribution_interior field w h x y 0 1 (by omega) (by omega) hx1 hx2 hy1 hy2,
    neighbourContribution_interior field w h x y 2 1 (by omega) (by omega) hx1 hx2 hy1 hy2,
    neighbourContribution_interior field w h x y 0 2 (by omega) (by omega) hx1 hx2 hy1 hy2,
    neighbourContribution_interior field w h x y 1 2 (by omega) (by omega) hx1 hx2 hy1 hy2,
    neighbourContribution_interior field w h x y 2 2 (by omega) (by omega) hx1 hx2 hy1 hy2,
    show x + 0 - 1 = x - 1 from by omega, show y + 0 - 1 = y - 1 from by omega,
    show x + 1 - 1 = x from by omega, show y + 1 - 1 = y from by omega,
    show x + 2 - 1 = x + 1 from by omega, show y + 2 - 1 = y + 1 from by omega]
  simp only [interiorNeighbourCount, List.countP_cons, List.countP_nil]
  ring

/-! ### Further facts about single contributions -/

lemma neighbourContribution_le_one (field : List Bool) (w h x y dx dy : Nat) :
    neighbourContribution field w h x y dx dy ≤ 1 := by
  simp only [neighbourContribution]
  split_ifs <;> omega

lemma neighbourContribution_oob (field : List Bool) (w h x y dx dy : Nat)
    (hoob : (x : Int) + dx - 1 < 0 ∨ (x : Int) + dx - 1 ≥ (w : Int)
      ∨ (y : Int) + dy - 1 < 0 ∨ (y : Int) + dy - 1 ≥ (h : Int)) :
    neighbourContribution field w h x y dx dy = 0 := by
  simp only [neighbourContribution]
  rw [if_pos hoob]

lemma getD_replicate_false (n j : Nat) : (List.replicate n false).getD j false = false := by
  rcases Nat.lt_or_ge j n with hj | hj
  · rw [List.getD_eq_getElem _ _ (by simpa using hj), List.getElem_replicate]
  · rw [List.getD_eq_default _ _ (by simpa using hj)]

lemma neighbourContribution_all_dead (n w h x y dx dy : Nat) :
    neighbourContribution (List.replicate n false) w h x y dx dy = 0 := by
  simp only [neighbourContribution]
  by_cases hb : ((x : Int) + dx - 1 < 0 ∨ (x : Int) + dx - 1 ≥ (w : Int)
      ∨ (y : Int) + dy - 1 < 0 ∨ (y : Int) + dy - 1 ≥ (h : Int))
  · rw [if_pos hb]
  · rw [if_neg hb]
    simp [getD_replicate_false]

lemma aliveNeighbours_all_dead (n w h x y : Nat) :
    aliveNeighbours (List.replicate n false) w h x y = 0 := by
  rw [aliveNeighbours_eq, neighbourContribution_all_dead, neighbourContribution_all_dead,
    neighbourContribution_all_dead, neighbourContribution_all_dead,
    neighbourContribution_all_dead, neighbourContribution_all_dead,
    neighbourContribution_all_dead, neighbourContribution_all_dead]

/-! ### Claim theorems -/

/-- C1: for every grid satisfying the length invariant and every interior
cell `(x, y)` (with `1 ≤ x ≤ width - 2` and `1 ≤ y ≤ height - 2`), the
cell's value after `update_field` follows the B3/S23 rule exactly: an
alive cell stays alive iff it has exactly 2 or 3 alive cells among its 8
surrounding neighbours, and a dead cell becomes alive iff it has exactly
3 alive neighbours; otherwise it stays dead. -/
theorem C1_interior_rule (field : List Bool) (w h x y : Nat)
    (hlen : field.length = h * w)
    (hx1 : 1 ≤ x) (hx2 : x ≤ w - 2) (hy1 : 1 ≤ y) (hy2 : y ≤ h - 2) :
    (update_field field w h).getD (x + y * w) false = true
      ↔ ((field.getD (x + y * w) false = true
            ∧ (interiorNeighbourCount field w x y = 2 ∨ interiorNeighbourCount field w x y = 3))
        ∨ (field.getD (x + y * w) false = false ∧ interiorNeighbourCount field w x y = 3)) := by
  have hxw : x + 2 ≤ w := by omega
  have hyh : y + 2 ≤ h := by omega
  have hj : x + y * w < h * w := by
    calc x + y * w < (y + 1) * w := by rw [Nat.add_mul, Nat.one_mul]; omega
    _ ≤ h * w := Nat.mul_le_mul_right _ (by omega)
  rw [update_field_getD field w h hlen _ hj, Nat.add_mul_mod_self_right,
    Nat.mod_eq_of_lt (by omega : x < w), Nat.add_mul_div_right _ _ (by omega : 0 < w),
    Nat.div_eq_of_lt (by omega : x < w), Nat.zero_add,
    aliveNeighbours_interior field w h x y hx1 hxw hy1 hyh]
  cases hcell : field.getD (x + y * w) false <;> simp [lifeRule, hcell]

/-- Witness for C1 on a concrete grid: the centre of a 3×3 vertical
blinker is alive with 2 alive neighbours and survives. -/
theorem C1_witness :
    (([false, true, false, false, true, false, false, true, false] : List Bool).length = 3 * 3
      ∧ 1 ≤ 1 ∧ 1 ≤ 3 - 2)
    ∧ ((update_field [false, true, false, false, true, false, false, true, false] 3 3).getD
          (1 + 1 * 3) false = true
      ↔ (([false, true, false, false, true, false, false, true, false] : List Bool).getD
            (1 + 1 * 3) false = true
            ∧ (interiorNeighbourCount [false, true, false, false, true, false, false, true, false]
                  3 1 1 = 2
              ∨ interiorNeighbourCount [false, true, false, false, true, false, false, true, false]
                  3 1 1 = 3))
        ∨ (([false, true, false, false, true, false, false, true, false] : List Bool).getD
            (1 + 1 * 3) false = false
            ∧ interiorNeighbourCount [false, true, false, false, true, false, false, true, false]
                3 1 1 = 3)) :=
  ⟨⟨by decide, by decide, by decide⟩,
    C1_interior_rule [false, true, false, false, true, false, false, true, false] 3 3 1 1
      (by decide) (by decide) (by decide) (by decide) (by decide)⟩

/-- C2: the neighbour scan skips every out-of-bounds candidate (it never
wraps), so the corner cell `(0, 0)` can see at most 3 neighbours whatever
the grid contents, and stepping an all-dead grid yields the all-dead
grid. -/
theorem C2_boundary_policy (field : List Bool) (w h : Nat) :
    aliveNeighbours field w h 0 0 ≤ 3
    ∧ update_field (List.replicate (h * w) false) w h = List.replicate (h * w) false := by
  constructor
  · rw [aliveNeighbours_eq,
      neighbourContribution_oob field w h 0 0 0 0 (by omega),
      neighbourContribution_oob field w h 0 0 1 0 (by omega),
      neighbourContribution_oob field w h 0 0 2 0 (by omega),
      neighbourContribution_oob field w h 0 0 0 1 (by omega),
      neighbourContribution_oob field w h 0 0 0 2 (by omega)]
    have h1 := neighbourContribution_le_one field w h 0 0 2 1
    have h2 := neighbourContribution_le_one field w h 0 0 1 2
    have h3 := neighbourContribution_le_one field w h 0 0 2 2
    linarith
  · apply List.ext_getElem
    · rw [update_field_length, List.length_replicate]
    · intro j h1 h2
      have hj : j < h * w := by
        rwa [update_field_length, List.length_replicate] at h1
      rw [← List.getD_eq_getElem _ false h1, ← List.getD_eq_getElem _ false h2,
        update_field_getD _ _ _ (by rw [List.length_replicate]) j hj,
        getD_replicate_false, aliveNeighbours_all_dead]
      rfl

/-- C6: the Clear loop makes every cell read back `false`, keeps the cell
store's size (hence the grid dimensions) unchanged, and is idempotent. -/
theorem C6_clear (field : List Bool) :
    (∀ j, (clearField field).getD j false = false)
    ∧ (clearField field).length = field.length
    ∧ clearField (clearField field) = clearField field := by
  refine ⟨clearField_getD field, clearField_length field, ?_⟩
  apply List.ext_getElem (by rw [clearField_length])
  intro j h1 h2
  rw [← List.getD_eq_getElem _ false h1, ← List.getD_eq_getElem _ false h2,
    clearField_getD, clearField_getD]

/-- C8: the linear-index mapping round-trips: for in-range `(x, y)`,
`coords_of width (index_of width x y) = (x, y)`. -/
theorem C8_index_roundtrip (w h x y : Nat) (hx : x < w) (hy : y < h) :
    coords_of w (index_of w x y) = (x, y) := by
  unfold coords_of index_of
  rw [Nat.add_mul_mod_self_right, Nat.mod_eq_of_lt hx,
    Nat.add_mul_div_right _ _ (by omega : 0 < w), Nat.div_eq_of_lt hx, Nat.zero_add]

/-- Witness for C8 at `(x, y) = (2, 3)` on a 5×4 grid. -/
theorem C8_witness : (2 < 5 ∧ 3 < 4) ∧ coords_of 5 (index_of 5 2 3) = (2, 3) :=
  ⟨⟨by decide, by decide⟩, C8_index_roundtrip 5 4 2 3 (by decide) (by decide)⟩

/-- C9: in the running update loop a step fires only once the accumulated
elapsed time exceeds the configured delay — until then the grid is kept
and the accumulator just grows — and when a step fires the accumulator is
reset to zero and the grid replaced by `update_field`. -/
theorem C9_step_timing (w h delay : Nat) (s : SimState) (since_last : Nat) :
    (s.current_step + since_last ≤ delayNanos delay →
      update_tick true w h delay s since_last
        = { field := s.field, current_step := s.current_step + since_last })
    ∧ (delayNanos delay < s.current_step + since_last →
      update_tick true w h delay s since_last
        = { field := update_field s.field w h, current_step := 0 }) := by
  constructor
  · intro hle
    simp only [update_tick, Bool.not_true]
    rw [if_neg (by decide), if_neg (by omega)]
  · intro hgt
    simp only [update_tick, Bool.not_true]
    rw [if_neg (by decide), if_pos (by omega)]

/-- Witness for C9: on a 1×1 dead grid with a 100 ms delay, 50 ns of
elapsed time does not fire a step, while 200 ms does and resets the
accumulator. -/
theorem C9_witness :
    ((0 + 50 ≤ delayNanos 100)
      ∧ update_tick true 1 1 100 ⟨[false], 0⟩ 50 = ⟨[false], 0 + 50⟩)
    ∧ ((delayNanos 100 < 0 + 200000000)
      ∧ update_tick true 1 1 100 ⟨[false], 0⟩ 200000000 = ⟨update_field [false] 1 1, 0⟩) :=
  ⟨⟨by decide, (C9_step_timing 1 1 100 ⟨[false], 0⟩ 50).1 (by decide)⟩,
   ⟨by decide, (C9_step_timing 1 1 100 ⟨[false], 0⟩ 200000000).2 (by decide)⟩⟩

/-- C3: the step returns a grid of identical dimensions (`height * width`
cells), and every output cell is the rule applied to the *input* grid's
tile and the neighbour count computed over the *input* grid only — the new
generation is built from a read-only view of the previous one (in the
source, neighbour reads go to `field` while writes go to the clone
`copy`), so no neighbour count can see an already-updated cell. -/
theorem C3_fresh_grid (field : List Bool) (w h : Nat) (hlen : field.length = h * w) :
    (update_field field w h).length = h * w
    ∧ ∀ j, j < h * w →
        (update_field field w h).getD j false
          = lifeRule (field.getD j false) (aliveNeighbours field w h (j % w) (j / w)) :=
  ⟨by rw [update_field_length, hlen], fun j hj => update_field_getD field w h hlen j hj⟩

/-- Witness for C3 on a 1×1 grid holding a single live cell. -/
theorem C3_witness :
    ([true].length = 1 * 1)
    ∧ (update_field [true] 1 1).length = 1 * 1
    ∧ (update_field [true] 1 1).getD 0 false
        = lifeRule ([true].getD 0 false) (aliveNeighbours [true] 1 1 (0 % 1) (0 / 1)) :=
  ⟨by decide, (C3_fresh_grid [true] 1 1 (by decide)).1,
    (C3_fresh_grid [true] 1 1 (by decide)).2 0 (by decide)⟩

/-- A contribution on a pattern grid, with its condition replaced by any
equivalent (typically simpler, purely arithmetic) proposition. -/
lemma neighbourContribution_patternGrid_iff (w h x y dx dy : Nat) (p : Nat → Nat → Bool)
    (Q : Prop) [Decidable Q]
    (hq : Q ↔ (0 ≤ (x : Int) + dx - 1 ∧ (x : Int) + dx - 1 < (w : Int)
      ∧ 0 ≤ (y : Int) + dy - 1 ∧ (y : Int) + dy - 1 < (h : Int)
      ∧ p ((x : Int) + dx - 1).toNat ((y : Int) + dy - 1).toNat = true)) :
    neighbourContribution (patternGrid w h p) w h x y dx dy = if Q then 1 else 0 := by
  rw [neighbourContribution_patternGrid]
  by_cases hQ : Q
  · rw [if_pos (hq.mp hQ), if_pos hQ]
  · rw [if_neg (fun hc => hQ (hq.mpr hc)), if_neg hQ]

/-- An indicator of a conjunction is the product of the indicators. -/
lemma if_and_mul (P Q : Prop) [Decidable P] [Decidable Q] :
    (if P ∧ Q then 1 else 0 : Nat) = (if P then 1 else 0) * (if Q then 1 else 0) := by
  by_cases hP : P <;> by_cases hQ : Q <;> simp [hP, hQ]

/-- Per-axis analysis for the 2×2 block pattern: either `u` is one of the
two block lines (then exactly two of the three offset conditions hold and
the middle one does), or it is not (then at most one holds and the middle
one does not). -/
lemma blockAxis (u u0 : Nat) :
    ((u = u0 ∨ u = u0 + 1)
      ∧ (if (u = u0 + 1 ∨ u = u0 + 2) then 1 else 0 : Nat)
        + (if (u = u0 ∨ u = u0 + 1) then 1 else 0)
        + (if (u + 1 = u0 ∨ u = u0) then 1 else 0) = 2
      ∧ (if (u = u0 ∨ u = u0 + 1) then 1 else 0 : Nat) = 1)
    ∨ (¬(u = u0 ∨ u = u0 + 1)
      ∧ (if (u = u0 + 1 ∨ u = u0 + 2) then 1 else 0 : Nat)
        + (if (u = u0 ∨ u = u0 + 1) then 1 else 0)
        + (if (u + 1 = u0 ∨ u = u0) then 1 else 0) = 0
      ∧ (if (u = u0 ∨ u = u0 + 1) then 1 else 0 : Nat) = 0)
    ∨ (¬(u = u0 ∨ u = u0 + 1)
      ∧ (if (u = u0 + 1 ∨ u = u0 + 2) then 1 else 0 : Nat)
        + (if (u = u0 ∨ u = u0 + 1) then 1 else 0)
        + (if (u + 1 = u0 ∨ u = u0) then 1 else 0) = 1
      ∧ (if (u = u0 ∨ u = u0 + 1) then 1 else 0 : Nat) = 0) := by
  split_ifs <;> omega

/-- Cell-level analysis for the 2×2 block: with the block strictly inside
the grid, every cell of the block pattern is mapped to itself by the
rule (block cells have exactly 3 alive neighbours, all other cells have a
neighbour count different from 3). -/
lemma block_cell (w h x0 y0 x y : Nat)
    (hx0 : 1 ≤ x0) (hx0w : x0 + 3 ≤ w) (hy0 : 1 ≤ y0) (hy0h : y0 + 3 ≤ h)
    (hx : x < w) (hy : y < h) :
    lifeRule (decide ((x = x0 ∨ x = x0 + 1) ∧ (y = y0 ∨ y = y0 + 1)))
      (aliveNeighbours (patternGrid w h
        (fun a b => decide ((a = x0 ∨ a = x0 + 1) ∧ (b = y0 ∨ b = y0 + 1)))) w h x y)
      = decide ((x = x0 ∨ x = x0 + 1) ∧ (y = y0 ∨ y = y0 + 1)) := by
  rw [aliveNeighbours_eq,
    neighbourContribution_patternGrid_iff w h x y 0 0 _
      (((x = x0 + 1 ∨ x = x0 + 2) ∧ (y = y0 + 1 ∨ y = y0 + 2)))
      (by simp only [decide_eq_true_eq]; omega),
    neighbourContribution_patternGrid_iff w h x y 1 0 _
      (((x = x0 ∨ x = x0 + 1) ∧ (y = y0 + 1 ∨ y = y0 + 2)))
      (by simp only [decide_eq_true_eq]; omega),
    neighbourContribution_patternGrid_iff w h x y 2 0 _
      (((x + 1 = x0 ∨ x = x0) ∧ (y = y0 + 1 ∨ y = y0 + 2)))
      (by simp only [decide_eq_true_eq]; omega),
    neighbourContribution_patternGrid_iff w h x y 0 1 _
      (((x = x0 + 1 ∨ x = x0 + 2) ∧ (y = y0 ∨ y = y0 + 1)))
      (by simp only [decide_eq_true_eq]; omega),
    neighbourContribution_patternGrid_iff w h x y 2 1 _
      (((x + 1 = x0 ∨ x = x0) ∧ (y = y0 ∨ y = y0 + 1)))
      (by simp only [decide_eq_true_eq]; omega),
    neighbourContribution_patternGrid_iff w h x y 0 2 _
      (((x = x0 + 1 ∨ x = x0 + 2) ∧ (y + 1 = y0 ∨ y = y0)))
      (by simp only [decide_eq_true_eq]; omega),
    neighbourContribution_patternGrid_iff w h x y 1 2 _
      (((x = x0 ∨ x = x0 + 1) ∧ (y + 1 = y0 ∨ y = y0)))
      (by simp only [decide_eq_true_eq]; omega),
    neighbourContribution_patternGrid_iff w h x y 2 2 _
      (((x + 1 = x0 ∨ x = x0) ∧ (y + 1 = y0 ∨ y = y0)))
      (by simp only [decide_eq_true_eq]; omega)]
  simp only [if_and_mul]
  have hxs := blockAxis x x0
  have hys := blockAxis y y0
  set a0 : Nat := (if (x = x0 + 1 ∨ x = x0 + 2) then 1 else 0) with ha0
  set a1 : Nat := (if (x = x0 ∨ x = x0 + 1) then 1 else 0) with ha1
  set a2 : Nat := (if (x + 1 = x0 ∨ x = x0) then 1 else 0) with ha2
  set b0 : Nat := (if (y = y0 + 1 ∨ y = y0 + 2) then 1 else 0) with hb0
  set b1 : Nat := (if (y = y0 ∨ y = y0 + 1) then 1 else 0) with hb1
  set b2 : Nat := (if (y + 1 = y0 ∨ y = y0) then 1 else 0) with hb2
  generalize hgen : a0 * b0 + a1 * b0 + a2 * b0 + a0 * b1 + a2 * b1
      + a0 * b2 + a1 * b2 + a2 * b2 = n
  have harith : n + a1 * b1 = (a0 + a1 + a2) * (b0 + b1 + b2) := by
    rw [← hgen]; ring
  rw [lifeRule_decide]
  rcases hxs with ⟨hfx, hsx, hmx⟩ | ⟨hfx, hsx, hmx⟩ | ⟨hfx, hsx, hmx⟩ <;>
    rcases hys with ⟨hfy, hsy, hmy⟩ | ⟨hfy, hsy, hmy⟩ | ⟨hfy, hsy, hmy⟩ <;>
    rw [hsy, hmy] at harith <;> omega

/-- C4: a grid whose only live cells form a 2×2 block strictly inside the
boundary is an exact fixed point of the step function. -/
theorem C4_block_still_life (field : List Bool) (w h x0 y0 : Nat)
    (hlen : field.length = h * w)
    (hx0 : 1 ≤ x0) (hx0w : x0 + 1 ≤ w - 2) (hy0 : 1 ≤ y0) (hy0h : y0 + 1 ≤ h - 2)
    (hcells : ∀ x, x < w → ∀ y, y < h →
      (field.getD (x + y * w) false = true
        ↔ ((x = x0 ∨ x = x0 + 1) ∧ (y = y0 ∨ y = y0 + 1)))) :
    update_field field w h = field := by
  have hx0w' : x0 + 3 ≤ w := by omega
  have hy0h' : y0 + 3 ≤ h := by omega
  have hw : 0 < w := by omega
  have hfield : field = patternGrid w h
      (fun a b => decide ((a = x0 ∨ a = x0 + 1) ∧ (b = y0 ∨ b = y0 + 1))) := by
    apply eq_patternGrid field w h _ hlen
    intro j hj
    have hxj : j % w < w := Nat.mod_lt _ hw
    have hyj : j / w < h := Nat.div_lt_of_lt_mul (by rw [Nat.mul_comm w h]; exact hj)
    have hiff := hcells (j % w) hxj (j / w) hyj
    rw [Nat.mod_add_div' j w] at hiff
    exact eq_decide_of_iff _ _ hiff
  rw [hfield]
  exact update_field_pattern w h _ _
    (fun x y hx hy => block_cell w h x0 y0 x y hx0 hx0w' hy0 hy0h' hx hy)

/-- Witness for C4: the 2×2 block at `(1,1)` in a 4×4 grid is unchanged by
a step. -/
theorem C4_witness :
    (([false, false, false, false,
       false, true, true, false,
       false, true, true, false,
       false, false, false, false] : List Bool).length = 4 * 4
      ∧ 1 ≤ 1 ∧ 1 + 1 ≤ 4 - 2)
    ∧ update_field [false, false, false, false,
       false, true, true, false,
       false, true, true, false,
       false, false, false, false] 4 4
      = [false, false, false, false,
       false, true, true, false,
       false, true, true, false,
       false, false, false, false] :=
  ⟨⟨by decide, by decide, by decide⟩,
    C4_block_still_life [false, false, false, false,
       false, true, true, false,
       false, true, true, false,
       false, false, false, false] 4 4 1 1
      (by decide) (by decide) (by decide) (by decide) (by decide) (by decide)⟩

/-- Per-axis x-analysis for the horizontal blinker line `x ∈ {1,2,3}`. -/
lemma lineHAxisX (x : Nat) :
    (x = 2
      ∧ (if (x = 2 ∨ x = 3 ∨ x = 4) then 1 else 0 : Nat)
        + (if (x = 1 ∨ x = 2 ∨ x = 3) then 1 else 0)
        + (if (x = 0 ∨ x = 1 ∨ x = 2) then 1 else 0) = 3
      ∧ (if (x = 1 ∨ x = 2 ∨ x = 3) then 1 else 0 : Nat) = 1)
    ∨ ((x = 1 ∨ x = 3)
      ∧ (if (x = 2 ∨ x = 3 ∨ x = 4) then 1 else 0 : Nat)
        + (if (x = 1 ∨ x = 2 ∨ x = 3) then 1 else 0)
        + (if (x = 0 ∨ x = 1 ∨ x = 2) then 1 else 0) = 2
      ∧ (if (x = 1 ∨ x = 2 ∨ x = 3) then 1 else 0 : Nat) = 1)
    ∨ (¬(x = 1 ∨ x = 2 ∨ x = 3)
      ∧ (if (x = 2 ∨ x = 3 ∨ x = 4) then 1 else 0 : Nat)
        + (if (x = 1 ∨ x = 2 ∨ x = 3) then 1 else 0)
        + (if (x = 0 ∨ x = 1 ∨ x = 2) then 1 else 0) ≤ 1
      ∧ (if (x = 1 ∨ x = 2 ∨ x = 3) then 1 else 0 : Nat) = 0) := by
  split_ifs <;> omega

/-- Per-axis y-analysis for the horizontal blinker line `y = 1`. -/
lemma lineHAxisY (y : Nat) :
    (y = 1
      ∧ (if y = 2 then 1 else 0 : Nat) + (if y = 1 then 1 else 0)
        + (if y = 0 then 1 else 0) = 1
      ∧ (if y = 1 then 1 else 0 : Nat) = 1)
    ∨ ((y = 0 ∨ y = 2)
      ∧ (if y = 2 then 1 else 0 : Nat) + (if y = 1 then 1 else 0)
        + (if y = 0 then 1 else 0) = 1
      ∧ (if y = 1 then 1 else 0 : Nat) = 0)
    ∨ (3 ≤ y
      ∧ (if y = 2 then 1 else 0 : Nat) + (if y = 1 then 1 else 0)
        + (if y = 0 then 1 else 0) = 0
      ∧ (if y = 1 then 1 else 0 : Nat) = 0) := by
  split_ifs <;> omega

/-- Per-axis x-analysis for the vertical blinker line `x = 2`. -/
lemma lineVAxisX (x : Nat) :
    (x = 2
      ∧ (if x = 3 then 1 else 0 : Nat) + (if x = 2 then 1 else 0)
        + (if x = 1 then 1 else 0) = 1
      ∧ (if x = 2 then 1 else 0 : Nat) = 1)
    ∨ ((x = 1 ∨ x = 3)
      ∧ (if x = 3 then 1 else 0 : Nat) + (if x = 2 then 1 else 0)
        + (if x = 1 then 1 else 0) = 1
      ∧ (if x = 2 then 1 else 0 : Nat) = 0)
    ∨ (¬(x = 1 ∨ x = 2 ∨ x = 3)
      ∧ (if x = 3 then 1 else 0 : Nat) + (if x = 2 then 1 else 0)
        + (if x = 1 then 1 else 0) = 0
      ∧ (if x = 2 then 1 else 0 : Nat) = 0) := by
  split_ifs <;> omega

/-- Per-axis y-analysis for the vertical blinker line `y ∈ {0,1,2}`. -/
lemma lineVAxisY (y : Nat) :
    (y = 0
      ∧ (if (y = 1 ∨ y = 2 ∨ y = 3) then 1 else 0 : Nat) + (if y ≤ 2 then 1 else 0)
        + (if y ≤ 1 then 1 else 0) = 2
      ∧ (if y ≤ 2 then 1 else 0 : Nat) = 1)
    ∨ (y = 1
      ∧ (if (y = 1 ∨ y = 2 ∨ y = 3) then 1 else 0 : Nat) + (if y ≤ 2 then 1 else 0)
        + (if y ≤ 1 then 1 else 0) = 3
      ∧ (if y ≤ 2 then 1 else 0 : Nat) = 1)
    ∨ (y = 2
      ∧ (if (y = 1 ∨ y = 2 ∨ y = 3) then 1 else 0 : Nat) + (if y ≤ 2 then 1 else 0)
        + (if y ≤ 1 then 1 else 0) = 2
      ∧ (if y ≤ 2 then 1 else 0 : Nat) = 1)
    ∨ (y = 3
      ∧ (if (y = 1 ∨ y = 2 ∨ y = 3) then 1 else 0 : Nat) + (if y ≤ 2 then 1 else 0)
        + (if y ≤ 1 then 1 else 0) = 1
      ∧ (if y ≤ 2 then 1 else 0 : Nat) = 0)
    ∨ (4 ≤ y
      ∧ (if (y = 1 ∨ y = 2 ∨ y = 3) then 1 else 0 : Nat) + (if y ≤ 2 then 1 else 0)
        + (if y ≤ 1 then 1 else 0) = 0
      ∧ (if y ≤ 2 then 1 else 0 : Nat) = 0) := by
  split_ifs <;> omega

/-- One step sends every cell of the horizontal blinker pattern to the
corresponding cell of the vertical line pattern. -/
lemma blinker_cell_1 (w h x y : Nat) (hw : 5 ≤ w) (hh : 3 ≤ h) (hx : x < w) (hy : y < h) :
    lifeRule (decide (y = 1 ∧ (x = 1 ∨ x = 2 ∨ x = 3)))
      (aliveNeighbours (patternGrid w h
        (fun a b => decide (b = 1 ∧ (a = 1 ∨ a = 2 ∨ a = 3)))) w h x y)
      = decide (x = 2 ∧ y ≤ 2) := by
  rw [aliveNeighbours_eq,
    neighbourContribution_patternGrid_iff w h x y 0 0 _
      (((x = 2 ∨ x = 3 ∨ x = 4) ∧ y = 2))
      (by simp only [decide_eq_true_eq]; omega),
    neighbourContribution_patternGrid_iff w h x y 1 0 _
      (((x = 1 ∨ x = 2 ∨ x = 3) ∧ y = 2))
      (by simp only [decide_eq_true_eq]; omega),
    neighbourContribution_patternGrid_iff w h x y 2 0 _
      (((x = 0 ∨ x = 1 ∨ x = 2) ∧ y = 2))
      (by simp only [decide_eq_true_eq]; omega),
    neighbourContribution_patternGrid_iff w h x y 0 1 _
      (((x = 2 ∨ x = 3 ∨ x = 4) ∧ y = 1))
      (by simp only [decide_eq_true_eq]; omega),
    neighbourContribution_patternGrid_iff w h x y 2 1 _
      (((x = 0 ∨ x = 1 ∨ x = 2) ∧ y = 1))
      (by simp only [decide_eq_true_eq]; omega),
    neighbourContribution_patternGrid_iff w h x y 0 2 _
      (((x = 2 ∨ x = 3 ∨ x = 4) ∧ y = 0))
      (by simp only [decide_eq_true_eq]; omega),
    neighbourContribution_patternGrid_iff w h x y 1 2 _
      (((x = 1 ∨ x = 2 ∨ x = 3) ∧ y = 0))
      (by simp only [decide_eq_true_eq]; omega),
    neighbourContribution_patternGrid_iff w h x y 2 2 _
      (((x = 0 ∨ x = 1 ∨ x = 2) ∧ y = 0))
      (by simp only [decide_eq_true_eq]; omega)]
  simp only [if_and_mul]
  have hxs := lineHAxisX x
  have hys := lineHAxisY y
  set a0 : Nat := (if (x = 2 ∨ x = 3 ∨ x = 4) then 1 else 0) with ha0
  set a1 : Nat := (if (x = 1 ∨ x = 2 ∨ x = 3) then 1 else 0) with ha1
  set a2 : Nat := (if (x = 0 ∨ x = 1 ∨ x = 2) then 1 else 0) with ha2
  set b0 : Nat := (if y = 2 then 1 else 0) with hb0
  set b1 : Nat := (if y = 1 then 1 else 0) with hb1
  set b2 : Nat := (if y = 0 then 1 else 0) with hb2
  generalize hgen : a0 * b0 + a1 * b0 + a2 * b0 + a0 * b1 + a2 * b1
      + a0 * b2 + a1 * b2 + a2 * b2 = n
  have harith : n + a1 * b1 = (a0 + a1 + a2) * (b0 + b1 + b2) := by
    rw [← hgen]; ring
  rw [lifeRule_decide]
  rcases hxs with ⟨hfx, hsx, hmx⟩ | ⟨hfx, hsx, hmx⟩ | ⟨hfx, hsx, hmx⟩ <;>
    rcases hys with ⟨hfy, hsy, hmy⟩ | ⟨hfy, hsy, hmy⟩ | ⟨hfy, hsy, hmy⟩ <;>
    rw [hsy, hmy] at harith <;> omega

/-- One step sends every cell of the vertical line pattern back to the
corresponding cell of the horizontal blinker pattern. -/
lemma blinker_cell_2 (w h x y : Nat) (hw : 5 ≤ w) (hh : 3 ≤ h) (hx : x < w) (hy : y < h) :
    lifeRule (decide (x = 2 ∧ y ≤ 2))
      (aliveNeighbours (patternGrid w h
        (fun a b => decide (a = 2 ∧ b ≤ 2))) w h x y)
      = decide (y = 1 ∧ (x = 1 ∨ x = 2 ∨ x = 3)) := by
  rw [aliveNeighbours_eq,
    neighbourContribution_patternGrid_iff w h x y 0 0 _
      ((x = 3 ∧ (y = 1 ∨ y = 2 ∨ y = 3)))
      (by simp only [decide_eq_true_eq]; omega),
    neighbourContribution_patternGrid_iff w h x y 1 0 _
      ((x = 2 ∧ (y = 1 ∨ y = 2 ∨ y = 3)))
      (by simp only [decide_eq_true_eq]; omega),
    neighbourContribution_patternGrid_iff w h x y 2 0 _
      ((x = 1 ∧ (y = 1 ∨ y = 2 ∨ y = 3)))
      (by simp only [decide_eq_true_eq]; omega),
    neighbourContribution_patternGrid_iff w h x y 0 1 _
      ((x = 3 ∧ y ≤ 2))
      (by simp only [decide_eq_true_eq]; omega),
    neighbourContribution_patternGrid_iff w h x y 2 1 _
      ((x = 1 ∧ y ≤ 2))
      (by simp only [decide_eq_true_eq]; omega),
    neighbourContribution_patternGrid_iff w h x y 0 2 _
      ((x = 3 ∧ y ≤ 1))
      (by simp only [decide_eq_true_eq]; omega),
    neighbourContribution_patternGrid_iff w h x y 1 2 _
      ((x = 2 ∧ y ≤ 1))
      (by simp only [decide_eq_true_eq]; omega),
    neighbourContribution_patternGrid_iff w h x y 2 2 _
      ((x = 1 ∧ y ≤ 1))
      (by simp only [decide_eq_true_eq]; omega)]
  simp only [if_and_mul]
  have hxs := lineVAxisX x
  have hys := lineVAxisY y
  set a0 : Nat := (if x = 3 then 1 else 0) with ha0
  set a1 : Nat := (if x = 2 then 1 else 0) with ha1
  set a2 : Nat := (if x = 1 then 1 else 0) with ha2
  set b0 : Nat := (if (y = 1 ∨ y = 2 ∨ y = 3) then 1 else 0) with hb0
  set b1 : Nat := (if y ≤ 2 then 1 else 0) with hb1
  set b2 : Nat := (if y ≤ 1 then 1 else 0) with hb2
  generalize hgen : a0 * b0 + a1 * b0 + a2 * b0 + a0 * b1 + a2 * b1
      + a0 * b2 + a1 * b2 + a2 * b2 = n
  have harith : n + a1 * b1 = (a0 + a1 + a2) * (b0 + b1 + b2) := by
    rw [← hgen]; ring
  rw [lifeRule_decide]
  rcases hxs with ⟨hfx, hsx, hmx⟩ | ⟨hfx, hsx, hmx⟩ | ⟨hfx, hsx, hmx⟩ <;>
    rcases hys with ⟨hfy, hsy, hmy⟩ | ⟨hfy, hsy, hmy⟩ | ⟨hfy, hsy, hmy⟩
      | ⟨hfy, hsy, hmy⟩ | ⟨hfy, hsy, hmy⟩ <;>
    rw [hsy, hmy] at harith <;> omega

/-- C5: in a grid of dimensions at least 5×3 whose only live cells are
`(1,1),(2,1),(3,1)`, one step yields the grid whose only live cells are
the 3-cell vertical line `(2,0),(2,1),(2,2)`, and a second step restores
the original grid (the blinker is a period-2 oscillator). -/
theorem C5_blinker (field : List Bool) (w h : Nat)
    (hw : 5 ≤ w) (hh : 3 ≤ h) (hlen : field.length = h * w)
    (hcells : ∀ x, x < w → ∀ y, y < h →
      (field.getD (x + y * w) false = true ↔ (y = 1 ∧ (x = 1 ∨ x = 2 ∨ x = 3)))) :
    (∀ x, x < w → ∀ y, y < h →
      ((update_field field w h).getD (x + y * w) false = true ↔ (x = 2 ∧ y ≤ 2)))
    ∧ update_field (update_field field w h) w h = field := by
  have hfield : field = patternGrid w h
      (fun a b => decide (b = 1 ∧ (a = 1 ∨ a = 2 ∨ a = 3))) := by
    apply eq_patternGrid field w h _ hlen
    intro j hj
    have hwpos : 0 < w := by omega
    have hxj : j % w < w := Nat.mod_lt _ hwpos
    have hyj : j / w < h := Nat.div_lt_of_lt_mul (by rw [Nat.mul_comm w h]; exact hj)
    have hiff := hcells (j % w) hxj (j / w) hyj
    rw [Nat.mod_add_div' j w] at hiff
    exact eq_decide_of_iff _ _ hiff
  have hstep1 : update_field field w h
      = patternGrid w h (fun a b => decide (a = 2 ∧ b ≤ 2)) := by
    rw [hfield]
    exact update_field_pattern w h _ _
      (fun x y hx hy => blinker_cell_1 w h x y hw hh hx hy)
  refine ⟨fun x hx y hy => ?_, ?_⟩
  · rw [hstep1, patternGrid_getD_xy w h _ hx hy, decide_eq_true_eq]
  · rw [hstep1, hfield]
    exact update_field_pattern w h _ _
      (fun x y hx hy => blinker_cell_2 w h x y hw hh hx hy)

/-- Witness for C5 on the concrete 5×3 grid holding the horizontal
blinker: cell `(2,0)` is born, and two steps reproduce the grid. -/
theorem C5_witness :
    ((update_field [false, false, false, false, false,
        false, true, true, true, false,
        false, false, false, false, false] 5 3).getD (2 + 0 * 5) false = true
      ↔ ((2 : Nat) = 2 ∧ (0 : Nat) ≤ 2))
    ∧ update_field (update_field [false, false, false, false, false,
        false, true, true, true, false,
        false, false, false, false, false] 5 3) 5 3
      = [false, false, false, false, false,
        false, true, true, true, false,
        false, false, false, false, false] :=
  ⟨(C5_blinker [false, false, false, false, false,
        false, true, true, true, false,
        false, false, false, false, false] 5 3
      (by decide) (by decide) (by decide) (by decide)).1 2 (by decide) 0 (by decide),
   (C5_blinker [false, false, false, false, false,
        false, true, true, true, false,
        false, false, false, false, false] 5 3
      (by decide) (by decide) (by decide) (by decide)).2⟩

/-- C7 counterexample: on an all-dead 2×2 grid (`width = height = 2`), the
inverse-mapped coordinate `(0, 2)` is out of range and the toggle path
panics (`none`) instead of having no effect, while the out-of-range
coordinate `(2, 0)` silently toggles the cell stored at index 2 — the
grid changes.  `2` is not below the grid dimension `2`, so both inputs
violate the claimed "no effect and no failure" behaviour. -/
theorem C7_counterexample :
    ¬((2 : Int) < 2)
    ∧ mouse_released [false, false, false, false] 2 0 2 = none
    ∧ mouse_released [false, false, false, false] 2 2 0
        = some [false, false, true, false] :=
  ⟨by decide, by decide, by decide⟩

/-- C7 (amended): the mouse-release toggle path performs no range check on
the inverse-mapped cell coordinate.  It flips the boolean at linear index
`x + y * width` whenever that index is in range of the cell store — even
when `(x, y)` itself is out of the grid — and panics (modelled `none`)
exactly when the index is negative or not below the store length. -/
theorem C7_toggle_flip (field : List Bool) (width : Nat) (x y : Int) :
    (0 ≤ x + y * (width : Int) → (x + y * (width : Int)).toNat < field.length →
      mouse_released field width x y
        = some (field.set (x + y * (width : Int)).toNat
            (!(field.getD (x + y * (width : Int)).toNat false))))
    ∧ ((x + y * (width : Int) < 0 ∨ field.length ≤ (x + y * (width : Int)).toNat) →
      mouse_released field width x y = none) := by
  constructor
  · intro h1 h2
    simp only [mouse_released]
    rw [if_neg (by omega), if_pos h2]
  · intro hcase
    simp only [mouse_released]
    by_cases hneg : x + y * (width : Int) < 0
    · rw [if_pos hneg]
    · rw [if_neg hneg, if_neg (by omega)]

/-- Witness for the amended C7: toggling in-range cell `(1, 1)` of an
all-dead 2×2 grid sets exactly index 3, and the out-of-range coordinate
`(0, 2)` panics. -/
theorem C7_witness :
    ((0 : Int) ≤ 1 + 1 * 2 ∧ ((1 : Int) + 1 * 2).toNat < 4)
    ∧ mouse_released [false, false, false, false] 2 1 1
        = some [false, false, false, true]
    ∧ mouse_released [false, false, false, false] 2 0 2 = none :=
  ⟨⟨by decide, by decide⟩,
    (C7_toggle_flip [false, false, false, false] 2 1 1).1 (by decide) (by decide),
    (C7_toggle_flip [false, false, false, false] 2 0 2).2 (by decide)⟩

/-! ### No-panic equivalence of the checked step (claim C10) -/

lemma toI32_eq (n : Nat) (hn : n < 2 ^ 31) : toI32 n = some (n : Int) := by
  unfold toI32
  rw [if_pos hn]

lemma boundsCheckFails_eq (w h : Nat) (x_n y_n : Int) (hw : w < 2 ^ 31) (hh : h < 2 ^ 31) :
    boundsCheckFails w h x_n y_n
      = some (decide (x_n < 0 ∨ x_n ≥ (w : Int) ∨ y_n < 0 ∨ y_n ≥ (h : Int))) := by
  simp only [boundsCheckFails, toI32_eq w hw, toI32_eq h hh, Option.bind_eq_bind,
    Option.some_bind]
  by_cases h1 : x_n < 0
  · rw [if_pos h1]
    simp [h1]
  · rw [if_neg h1]
    by_cases h2 : x_n ≥ (w : Int)
    · rw [if_pos h2]
      simp [h1, h2]
    · rw [if_neg h2]
      by_cases h3 : y_n < 0
      · rw [if_pos h3]
        simp [h1, h2, h3]
      · rw [if_neg h3]
        simp [h1, h2, h3]

lemma neighbourContributionChecked_eq (field : List Bool) (w h x y dx dy : Nat)
    (hdx : dx < 3) (hdy : dy < 3) (hx : x < w) (hy : y < h)
    (hw : w + 2 < 2 ^ 31) (hh : h + 2 < 2 ^ 31) (hlen : field.length = h * w) :
    neighbourContributionChecked field w h x y dx dy
      = some (neighbourContribution field w h x y dx dy) := by
  have hxdx : x + dx < 2 ^ 31 := by omega
  have hydy : y + dy < 2 ^ 31 := by omega
  simp only [neighbourContributionChecked, toI32_eq _ hxdx, toI32_eq _ hydy,
    Option.bind_eq_bind, Option.some_bind]
  rw [boundsCheckFails_eq w h _ _ (by omega) (by omega)]
  simp only [Option.bind_eq_bind, Option.some_bind, Nat.cast_add, neighbourContribution]
  by_cases hb : ((x : Int) + dx - 1 < 0 ∨ (x : Int) + dx - 1 ≥ (w : Int)
      ∨ (y : Int) + dy - 1 < 0 ∨ (y : Int) + dy - 1 ≥ (h : Int))
  · rw [if_pos (decide_eq_true hb), if_pos hb]
    rfl
  · rw [if_neg (fun hc => hb (of_decide_eq_true hc)), if_neg hb,
      toI32_eq w (by omega)]
    simp only [Option.some_bind]
    have h1 : 0 ≤ (x : Int) + dx - 1 := by omega
    have h2 : (x : Int) + dx - 1 < (w : Int) := by omega
    have h3 : 0 ≤ (y : Int) + dy - 1 := by omega
    have h4 : (y : Int) + dy - 1 < (h : Int) := by omega
    rw [show (x : Int) + dx - 1 = ((x + dx - 1 : Nat) : Int) by omega,
      show (y : Int) + dy - 1 = ((y + dy - 1 : Nat) : Int) by omega,
      show (((x + dx - 1 : Nat) : Int) + ((y + dy - 1 : Nat) : Int) * (w : Int))
          = (((x + dx - 1) + (y + dy - 1) * w : Nat) : Int) by push_cast; ring]
    have hA : x + dx - 1 < w := by omega
    have hB : y + dy - 1 < h := by omega
    have hN : (x + dx - 1) + (y + dy - 1) * w < h * w := by
      calc (x + dx - 1) + (y + dy - 1) * w
          < (y + dy - 1 + 1) * w := by rw [Nat.add_mul, Nat.one_mul]; omega
      _ ≤ h * w := Nat.mul_le_mul_right _ (by omega)
    simp only [readCell, Int.toNat_natCast]
    rw [if_neg (by omega : ¬(((x + dx - 1) + (y + dy - 1) * w : Nat) : Int) < 0),
      if_pos (show (x + dx - 1) + (y + dy - 1) * w < field.length by omega)]
    simp only [Option.some_bind]
    rfl

lemma aliveNeighboursChecked_eq (field : List Bool) (w h x y : Nat)
    (hx : x < w) (hy : y < h)
    (hw : w + 2 < 2 ^ 31) (hh : h + 2 < 2 ^ 31) (hlen : field.length = h * w) :
    aliveNeighboursChecked field w h x y = some (aliveNeighbours field w h x y) := by
  have e00 := neighbourContributionChecked_eq field w h x y 0 0 (by omega) (by omega) hx hy hw hh hlen
  have e10 := neighbourContributionChecked_eq field w h x y 1 0 (by omega) (by omega) hx hy hw hh hlen
  have e20 := neighbourContributionChecked_eq field w h x y 2 0 (by omega) (by omega) hx hy hw hh hlen
  have e01 := neighbourContributionChecked_eq field w h x y 0 1 (by omega) (by omega) hx hy hw hh hlen
  have e21 := neighbourContributionChecked_eq field w h x y 2 1 (by omega) (by omega) hx hy hw hh hlen
  have e02 := neighbourContributionChecked_eq field w h x y 0 2 (by omega) (by omega) hx hy hw hh hlen
  have e12 := neighbourContributionChecked_eq field w h x y 1 2 (by omega) (by omega) hx hy hw hh hlen
  have e22 := neighbourContributionChecked_eq field w h x y 2 2 (by omega) (by omega) hx hy hw hh hlen
  simp only [aliveNeighboursChecked, show List.range 3 = [0, 1, 2] from rfl,
    List.foldlM_cons, List.foldlM_nil, e00, e10, e20, e01, e21, e02, e12, e22,
    Option.bind_eq_bind, Option.some_bind, Option.pure_def]
  norm_num
  rw [aliveNeighbours_eq]

/-- A monadic fold over `Option` equals `some` of the pure fold when every
step succeeds and preserves the invariant `P`. -/
lemma foldlM_eq_some {α β : Type} (g : β → α → Option β) (f : β → α → β) (P : β → Prop) :
    ∀ (l : List α) (acc : β), P acc →
      (∀ a i, P a → i ∈ l → g a i = some (f a i) ∧ P (f a i)) →
      l.foldlM g acc = some (l.foldl f acc) := by
  intro l
  induction l with
  | nil => intro acc _ _; rfl
  | cons i t ih =>
    intro acc hP hstep
    rw [List.foldlM_cons, List.foldl_cons]
    obtain ⟨heq, hP2⟩ := hstep acc i hP (List.mem_cons_self i t)
    rw [heq]
    simp only [Option.bind_eq_bind, Option.some_bind]
    exact ih (f acc i) hP2 (fun a j ha hj => hstep a j ha (List.mem_cons_of_mem i hj))

/-- C10: under the length invariant (and dimensions small enough that
`width * height` fits the `i32`/`u32` arithmetic the source uses), the
checked step function — which models every `unwrap` and slice indexing as
a possible panic — performs no out-of-bounds access and no failing
conversion: it returns exactly `some` of the pure step function's
result. -/
theorem C10_no_panic (field : List Bool) (w h : Nat) (hlen : field.length = h * w)
    (hw : w + 2 < 2 ^ 31) (hh : h + 2 < 2 ^ 31) (hcap : h * w < 2 ^ 31) :
    update_fieldChecked field w h = some (update_field field w h) := by
  unfold update_fieldChecked update_field
  refine foldlM_eq_some _ _ (fun l => l.length = field.length) (List.range (h * w)) field
    rfl ?_
  intro a i ha hi
  have hi' : i < h * w := List.mem_range.mp hi
  have hwpos : 0 < w := by
    rcases Nat.eq_zero_or_pos w with h0 | h0
    · rw [h0, Nat.mul_zero] at hi'; omega
    · exact h0
  have hx : i % w < w := Nat.mod_lt _ hwpos
  have hy2 : i / w < h := Nat.div_lt_of_lt_mul (by rw [Nat.mul_comm w h]; exact hi')
  constructor
  · simp only [Option.bind_eq_bind]
    rw [aliveNeighboursChecked_eq field w h (i % w) (i / w) hx hy2 hw hh hlen,
      Option.some_bind]
    rw [if_pos (show i % w + i / w * w < a.length by
      rw [ha, hlen, Nat.mod_add_div']
      exact hi')]
    rfl
  · simp only [List.length_set]
    exact ha

/-- Witness for C10 on a concrete 2×2 grid. -/
theorem C10_witness :
    (([true, false, false, true] : List Bool).length = 2 * 2
      ∧ 2 + 2 < 2 ^ 31 ∧ 2 * 2 < 2 ^ 31)
    ∧ update_fieldChecked [true, false, false, true] 2 2
        = some (update_field [true, false, false, true] 2 2) :=
  ⟨⟨by decide, by decide, by decide⟩,
    C10_no_panic [true, false, false, true] 2 2 (by decide) (by decide) (by decide)
      (by decide)⟩
